import Mathlib

set_option autoImplicit false
set_option linter.unusedVariables false

/-!
Verification of the RBAC / permission-tree / category-path core of the
go-react-blog repository, as a shallow embedding in Lean.

Go strings are modelled as `List Char`; Go `int` as `Int`; database rows as
structures; fallible database calls as `Except`/`Option` values.  Each
definition is translated from the corresponding source function
(`src/server/internal/service/permission.go`,
`src/server/internal/service/permission_service.go`,
`src/server/internal/middleware/rbac_auth.go`, `src/deploy/pg.sql`).
-/

namespace Blog

/-- Go strings, modelled as lists of characters. -/
abbrev GoStr := List Char

/-- Model of Go `strings.ToUpper` (ASCII case mapping, as used by the
access descriptors in this repository). -/
def goToUpper (s : GoStr) : GoStr := s.map Char.toUpper

/-- Model of Go `strings.SplitN(s, sep, 2)`: split around the first
occurrence of `sep` when present, otherwise return the one-element list. -/
def goSplitN2 (sep : Char) (s : GoStr) : List GoStr :=
  if sep ∈ s then
    [s.takeWhile (fun c => decide (c ≠ sep)), (s.dropWhile (fun c => decide (c ≠ sep))).tail]
  else [s]

/-- Model of Go `strings.HasPrefix(s, p)`. -/
def goStartsWith (s p : GoStr) : Bool := p.isPrefixOf s

/-- Model of Go `strings.HasSuffix(s, suf)`. -/
def goEndsWith (s suf : GoStr) : Bool := suf.isSuffixOf s

/-- Embedding of `matchAPIPath` (permission.go): split the access descriptor
`METHOD:path-pattern` on the first `:`; compare the method after `ToUpper`
(with `*` matching any method); then either prefix-match (pattern ending in
`/*`, suffix stripped) or require exact equality of the paths. -/
def matchAPIPath (permPath requestPath requestMethod : GoStr) : Bool :=
  match goSplitN2 ':' permPath with
  | [rawMethod, permPathPattern] =>
    let permMethod := goToUpper rawMethod
    if permMethod ≠ ['*'] ∧ permMethod ≠ goToUpper requestMethod then
      false
    else if goEndsWith permPathPattern ['/', '*'] then
      goStartsWith requestPath (permPathPattern.take (permPathPattern.length - 2))
    else
      decide (permPathPattern = requestPath)
  | _ => false

/-- Modelled from the spec: the method-matching rule in its own words —
a literal `*` matches any method, otherwise the comparison is
case-insensitive. -/
def specMethodMatch (rawMethod requestMethod : GoStr) : Bool :=
  decide (rawMethod = ['*']) || decide (goToUpper rawMethod = goToUpper requestMethod)

/-- Modelled from the spec: the path-matching rule in its own words — a
pattern ending in `/*` prefix-matches after stripping that suffix,
otherwise byte-exact equality is required. -/
def specPathMatch (pattern requestPath : GoStr) : Bool :=
  if goEndsWith pattern ['/', '*'] then
    goStartsWith requestPath (pattern.take (pattern.length - 2))
  else
    decide (pattern = requestPath)

theorem char_toNat_ofNat_valid {n : Nat} (h : n.isValidChar) : (Char.ofNat n).toNat = n := by
  rw [Char.ofNat, dif_pos h]
  rfl

theorem char_toUpper_eq_star {c : Char} : c.toUpper = '*' ↔ c = '*' := by
  constructor
  · intro h
    by_cases hc : c.toNat ≥ 97 ∧ c.toNat ≤ 122
    · exfalso
      have hv : (c.toNat - 32).isValidChar := Or.inl (by omega)
      have := congrArg Char.toNat h
      rw [Char.toUpper, if_pos hc, char_toNat_ofNat_valid hv] at this
      have hstar : ('*').toNat = 42 := by decide
      omega
    · rwa [Char.toUpper, if_neg hc] at h
  · intro h
    subst h
    decide

theorem goToUpper_eq_star {s : GoStr} : goToUpper s = ['*'] ↔ s = ['*'] := by
  constructor
  · intro h
    cases s with
    | nil => simp [goToUpper] at h
    | cons c t =>
      cases t with
      | nil =>
        have hc : c.toUpper = '*' := by simpa [goToUpper] using h
        rw [char_toUpper_eq_star.mp hc]
      | cons d u => simp [goToUpper] at h
  · intro h
    subst h
    decide

/-- Claim C2: for every access descriptor whose split on the first `:`
yields a method part and a path pattern, `matchAPIPath` decides exactly the
conjunction of the spec's method rule (case-insensitive, `*` wildcard) and
the spec's path rule (`/*` means prefix match on the stripped pattern,
otherwise byte-exact equality). -/
theorem matchAPIPath_spec (descriptor requestPath requestMethod rawMethod pattern : GoStr)
    (hsplit : goSplitN2 ':' descriptor = [rawMethod, pattern]) :
    matchAPIPath descriptor requestPath requestMethod =
      (specMethodMatch rawMethod requestMethod && specPathMatch pattern requestPath) := by
  have hbody : matchAPIPath descriptor requestPath requestMethod =
      (if goToUpper rawMethod ≠ ['*'] ∧ goToUpper rawMethod ≠ goToUpper requestMethod then
        false
      else specPathMatch pattern requestPath) := by
    unfold matchAPIPath
    rw [hsplit]
    rfl
  rw [hbody]
  split_ifs with h
  · have h1 : rawMethod ≠ ['*'] := fun hh => h.1 (by rw [hh]; decide)
    have h2 : specMethodMatch rawMethod requestMethod = false := by
      simp [specMethodMatch, h1, h.2]
    rw [h2, Bool.false_and]
  · rcases not_and_or.mp h with h' | h'
    · have h1 : rawMethod = ['*'] := goToUpper_eq_star.mp (not_not.mp h')
      have h2 : specMethodMatch rawMethod requestMethod = true := by
        simp [specMethodMatch, h1]
      rw [h2, Bool.true_and]
    · have h2 : specMethodMatch rawMethod requestMethod = true := by
        simp [specMethodMatch, not_not.mp h']
      rw [h2, Bool.true_and]

/-- Witness for C2 at a concrete input: the descriptor `GET:/api/v1/users`
does not match a request for `/api/v1/users/1` (exact-match pattern, longer
path), in accordance with the spec predicate. -/
theorem matchAPIPath_spec_witness :
    matchAPIPath ("GET:/api/v1/users".toList) ("/api/v1/users/1".toList) ("GET".toList) =
      (specMethodMatch ("GET".toList) ("GET".toList) &&
        specPathMatch ("/api/v1/users".toList) ("/api/v1/users/1".toList)) :=
  matchAPIPath_spec _ _ _ _ _ (by decide)

/-- A row of `sys_permissions` (model.Permission), restricted to the fields
the permission service reads.  `isBuiltin` models the `IsBuiltin` flag read
by `DeletePermission`. -/
structure Permission where
  permID : Int
  permType : Int
  parentID : Option Int
  apiPath : GoStr
  isEnabled : Bool
  isBuiltin : Bool
deriving DecidableEq

/-- A row of `sys_roles`, restricted to the fields relevant here. -/
structure Role where
  roleID : Int
  isEnabled : Bool
deriving DecidableEq

/-- The database tables consulted by the permission service:
`sys_roles`, `sys_permissions` and the `sys_role_permissions` join table
(pairs `(role_id, perm_id)`). -/
structure Store where
  roles : List Role
  permissions : List Permission
  rolePerms : List (Int × Int)
deriving DecidableEq

/-- The candidate-fetch query of `CheckPermission`: permissions joined to
`sys_role_permissions` with `role_id IN roleIDs` and
`sys_permissions.is_enabled = TRUE`.  Note that `sys_roles` is not part of
the query. -/
def fetchCandidates (st : Store) (roleIDs : List Int) : List Permission :=
  st.permissions.filter fun p =>
    p.isEnabled && st.rolePerms.any fun rp => decide (rp.1 ∈ roleIDs) && decide (rp.2 = p.permID)

/-- Embedding of `CheckPermission` (permission.go), with the database reply
abstracted as `fetched`.  The first component is the Go `(bool, error)`
result; the second component records whether the candidate fetch was
issued. -/
def CheckPermission (userID : Int) (roleIDs : List Int)
    (fetched : Except GoStr (List Permission)) (requestPath requestMethod : GoStr) :
    Except GoStr Bool × Bool :=
  if (1 : Int) ∈ roleIDs then
    (Except.ok true, false)
  else
    match fetched with
    | Except.error e => (Except.error e, true)
    | Except.ok perms =>
      (Except.ok (perms.any fun perm =>
         decide (perm.permType = 3) && !perm.apiPath.isEmpty &&
           matchAPIPath perm.apiPath requestPath requestMethod), true)

/-- `CheckPermission` run against a store whose candidate fetch succeeds
and returns exactly the rows of the join query. -/
def CheckPermissionDB (st : Store) (userID : Int) (roleIDs : List Int)
    (requestPath requestMethod : GoStr) : Except GoStr Bool × Bool :=
  CheckPermission userID roleIDs (Except.ok (fetchCandidates st roleIDs)) requestPath requestMethod

/-- The four ways the RBAC middleware can answer a request. -/
inductive AuthOutcome where
  | unauthorized
  | forbidden
  | serverError
  | next
deriving DecidableEq

/-- Embedding of the `RBACAuth` middleware (rbac_auth.go): missing user →
401; missing role list → 403; role 1 present → pass through; otherwise run
`CheckPermission` and map error to 500, deny to 403, allow to pass. -/
def RBACAuth (userID : Option Int) (roleIDs : Option (List Int))
    (fetched : Except GoStr (List Permission)) (requestPath requestMethod : GoStr) :
    AuthOutcome :=
  match userID with
  | none => AuthOutcome.unauthorized
  | some uid =>
    match roleIDs with
    | none => AuthOutcome.forbidden
    | some rids =>
      if (1 : Int) ∈ rids then
        AuthOutcome.next
      else
        match (CheckPermission uid rids fetched requestPath requestMethod).1 with
        | Except.error _ => AuthOutcome.serverError
        | Except.ok true => AuthOutcome.next
        | Except.ok false => AuthOutcome.forbidden

/-- `true` exactly on the `error` constructor. -/
def exceptHasError {ε α : Type} : Except ε α → Bool
  | Except.error _ => true
  | Except.ok _ => false

/-- Claim C1: with role ID 1 in the role set, `CheckPermission` answers
allow at once — for every database reply, every path and every method —
and reports that no candidate fetch was issued; the middleware likewise
passes the request through. -/
theorem superuser_bypass (userID : Int) (roleIDs : List Int)
    (fetched : Except GoStr (List Permission)) (requestPath requestMethod : GoStr)
    (h : (1 : Int) ∈ roleIDs) :
    CheckPermission userID roleIDs fetched requestPath requestMethod = (Except.ok true, false) ∧
    RBACAuth (some userID) (some roleIDs) fetched requestPath requestMethod = AuthOutcome.next := by
  constructor
  · simp [CheckPermission, h]
  · simp [RBACAuth, h]

/-- Witness for C1: role set `[1]`, a failing database, arbitrary request. -/
theorem superuser_bypass_witness :
    CheckPermission 7 [1] (Except.error ("db down".toList)) ("/x".toList) ("DELETE".toList) =
      (Except.ok true, false) ∧
    RBACAuth (some 7) (some [1]) (Except.error ("db down".toList)) ("/x".toList)
      ("DELETE".toList) = AuthOutcome.next :=
  superuser_bypass 7 [1] (Except.error ("db down".toList)) ("/x".toList) ("DELETE".toList)
    (by decide)

/-- Claim C4: for a non-superuser role set, `CheckPermission` returns an
error exactly when the candidate fetch fails; the middleware then answers
with an internal error (500), and it answers deny (403) precisely when the
check completed with no matching candidate. -/
theorem check_error_semantics (userID : Int) (roleIDs : List Int)
    (fetched : Except GoStr (List Permission)) (requestPath requestMethod : GoStr)
    (h : (1 : Int) ∉ roleIDs) :
    exceptHasError (CheckPermission userID roleIDs fetched requestPath requestMethod).1 =
      exceptHasError fetched ∧
    (exceptHasError fetched = true →
      RBACAuth (some userID) (some roleIDs) fetched requestPath requestMethod =
        AuthOutcome.serverError) ∧
    (RBACAuth (some userID) (some roleIDs) fetched requestPath requestMethod =
        AuthOutcome.forbidden ↔
      (CheckPermission userID roleIDs fetched requestPath requestMethod).1 =
        Except.ok false) := by
  cases fetched with
  | error e =>
    refine ⟨by simp [CheckPermission, exceptHasError, h], fun _ => ?_, ?_⟩
    · simp [RBACAuth, CheckPermission, h]
    · simp [RBACAuth, CheckPermission, h]
  | ok perms =>
    refine ⟨by simp [CheckPermission, exceptHasError, h], fun hc => ?_, ?_⟩
    · simp [exceptHasError] at hc
    · cases hb : perms.any fun perm =>
        decide (perm.permType = 3) && !perm.apiPath.isEmpty &&
          matchAPIPath perm.apiPath requestPath requestMethod
      · simp [RBACAuth, CheckPermission, h, hb]
      · simp [RBACAuth, CheckPermission, h, hb]

/-- Witness for C4: role set `[2]` with a failing fetch — the check errs
and the middleware answers 500, not 403. -/
theorem check_error_semantics_witness :
    exceptHasError (CheckPermission 7 [2] (Except.error ("db down".toList)) ("/x".toList)
        ("GET".toList)).1 = exceptHasError (Except.error ("db down".toList) :
          Except GoStr (List Permission)) ∧
    (exceptHasError (Except.error ("db down".toList) : Except GoStr (List Permission)) = true →
      RBACAuth (some 7) (some [2]) (Except.error ("db down".toList)) ("/x".toList)
        ("GET".toList) = AuthOutcome.serverError) ∧
    (RBACAuth (some 7) (some [2]) (Except.error ("db down".toList)) ("/x".toList)
        ("GET".toList) = AuthOutcome.forbidden ↔
      (CheckPermission 7 [2] (Except.error ("db down".toList)) ("/x".toList)
        ("GET".toList)).1 = Except.ok false) :=
  check_error_semantics 7 [2] (Except.error ("db down".toList)) ("/x".toList) ("GET".toList)
    (by decide)

/-- A store whose only role (ID 2) is disabled, with one enabled API
permission assigned solely to that role. -/
def disabledRoleStore : Store :=
  { roles := [{ roleID := 2, isEnabled := false }]
    permissions := [{ permID := 10, permType := 3, parentID := none
                      apiPath := "GET:/api/v1/articles".toList
                      isEnabled := true, isBuiltin := false }]
    rolePerms := [(2, 10)] }

/-- Counterexample to claim C3 as stated: every role in the store is
disabled and permission 10 is linked only to disabled role 2, yet the
non-superuser check for role set `[2]` returns allow — the candidate fetch
never consults role enablement. -/
theorem disabled_role_still_allows :
    (∀ r ∈ disabledRoleStore.roles, r.isEnabled = false) ∧
    (∀ rp ∈ disabledRoleStore.rolePerms, rp.1 = 2) ∧
    (1 : Int) ∉ ([2] : List Int) ∧
    (CheckPermissionDB disabledRoleStore 7 [2] ("/api/v1/articles".toList)
        ("GET".toList)).1 = Except.ok true := by
  refine ⟨by decide, by decide, by decide, by rfl⟩

/-- Claim C3 as amended: the candidate fetch excludes disabled
permissions and keeps only permissions linked to a requested role ID, but
it reads nothing from the role table — replacing the role rows (e.g.
disabling every role) cannot change the fetched candidate set. -/
theorem fetch_ignores_role_enablement (st : Store) (roleIDs : List Int)
    (p : Permission) (hp : p ∈ fetchCandidates st roleIDs) :
    (p.isEnabled = true ∧ ∃ rp ∈ st.rolePerms, rp.1 ∈ roleIDs ∧ rp.2 = p.permID) ∧
    ∀ rs : List Role, fetchCandidates { st with roles := rs } roleIDs =
      fetchCandidates st roleIDs := by
  refine ⟨?_, fun rs => rfl⟩
  rw [fetchCandidates, List.mem_filter] at hp
  obtain ⟨hmem, hcond⟩ := hp
  rw [Bool.and_eq_true] at hcond
  obtain ⟨hen, hany⟩ := hcond
  rw [List.any_eq_true] at hany
  obtain ⟨rp, hrp, hcond2⟩ := hany
  rw [Bool.and_eq_true, decide_eq_true_eq, decide_eq_true_eq] at hcond2
  exact ⟨hen, rp, hrp, hcond2.1, hcond2.2⟩

/-- Witness for the amended C3 at the concrete store above: permission 10
is a fetched candidate, it is enabled and linked to requested role 2, and
swapping in an enabled role table leaves the candidate set unchanged. -/
theorem fetch_ignores_role_enablement_witness :
    ({ permID := 10, permType := 3, parentID := none
       apiPath := "GET:/api/v1/articles".toList
       isEnabled := true, isBuiltin := false } : Permission) ∈
        fetchCandidates disabledRoleStore [2] ∧
    ((({ permID := 10, permType := 3, parentID := none
         apiPath := "GET:/api/v1/articles".toList
         isEnabled := true, isBuiltin := false } : Permission).isEnabled = true ∧
      ∃ rp ∈ disabledRoleStore.rolePerms, rp.1 ∈ ([2] : List Int) ∧ rp.2 =
        ({ permID := 10, permType := 3, parentID := none
           apiPath := "GET:/api/v1/articles".toList
           isEnabled := true, isBuiltin := false } : Permission).permID) ∧
      ∀ rs : List Role, fetchCandidates { disabledRoleStore with roles := rs } [2] =
        fetchCandidates disabledRoleStore [2]) :=
  ⟨by decide, fetch_ignores_role_enablement disabledRoleStore [2] _ (by decide)⟩

/-- Claim C9: an access descriptor that does not split on `:` into two
parts is treated as non-matching by `matchAPIPath`, and a successful fetch
never yields an error from `CheckPermission`, whatever descriptors the
candidates carry. -/
theorem malformed_descriptor_skipped (permPath requestPath requestMethod : GoStr)
    (h : (goSplitN2 ':' permPath).length ≠ 2) :
    matchAPIPath permPath requestPath requestMethod = false ∧
    ∀ (userID : Int) (roleIDs : List Int) (perms : List Permission) (p m : GoStr),
      exceptHasError (CheckPermission userID roleIDs (Except.ok perms) p m).1 = false := by
  constructor
  · have hmem : ':' ∉ permPath := by
      intro hc
      exact h (by simp [goSplitN2, hc])
    have hone : goSplitN2 ':' permPath = [permPath] := by
      simp [goSplitN2, hmem]
    unfold matchAPIPath
    rw [hone]
  · intro userID roleIDs perms p m
    by_cases h1 : (1 : Int) ∈ roleIDs
    · simp [CheckPermission, h1, exceptHasError]
    · simp [CheckPermission, h1, exceptHasError]

/-- Witness for C9: the colon-free descriptor `GETapi/x` never matches and
an ok fetch containing it produces no error. -/
theorem malformed_descriptor_skipped_witness :
    matchAPIPath ("GETapi/x".toList) ("/api/x".toList) ("GET".toList) = false ∧
    ∀ (userID : Int) (roleIDs : List Int) (perms : List Permission) (p m : GoStr),
      exceptHasError (CheckPermission userID roleIDs (Except.ok perms) p m).1 = false :=
  malformed_descriptor_skipped ("GETapi/x".toList) ("/api/x".toList) ("GET".toList) (by decide)

/-- All permission IDs of the input list, in input-scan order. -/
def permIDs (ps : List Permission) : List Int := ps.map Permission.permID

/-- Lookup in the Go map `permMap` built by `BuildPermissionTree`: a later
assignment to the same key overwrites an earlier one, so the stored value
is the last occurrence in the input list. -/
def permMapFind (ps : List Permission) (k : Int) : Option Permission :=
  ps.reverse.find? fun p => decide (p.permID = k)

/-- The root test of `BuildPermissionTree`:
`perm.ParentID == nil || *perm.ParentID == 0`. -/
def isRootPerm (p : Permission) : Bool :=
  match p.parentID with
  | none => true
  | some v => decide (v = 0)

/-- `σ` is a possible iteration order of the Go map built from `ps`: each
key exactly once, in an unspecified order (Go map iteration order is not
defined). -/
def IsMapIterOrder (ps : List Permission) (σ : List Int) : Prop :=
  σ.Nodup ∧ (∀ k ∈ σ, k ∈ permIDs ps) ∧ (∀ k ∈ permIDs ps, k ∈ σ)

/-- The map values visited by `for _, perm := range permMap`, in iteration
order `σ`. -/
def iterPerms (ps : List Permission) (σ : List Int) : List Permission :=
  σ.filterMap (permMapFind ps)

/-- IDs appended to `rootNodes`, in iteration order. -/
def buildRootIDs (ps : List Permission) (σ : List Int) : List Int :=
  ((iterPerms ps σ).filter isRootPerm).map Permission.permID

/-- IDs appended to the `Children` slice of the map node with ID `parent`:
the non-root nodes whose `ParentID` equals `parent`, provided that parent
key exists in the map (`if parent, ok := permMap[...]; ok`), in iteration
order. -/
def buildChildIDs (ps : List Permission) (σ : List Int) (parent : Int) : List Int :=
  if parent ∈ permIDs ps then
    ((iterPerms ps σ).filter fun p =>
      !isRootPerm p && decide (p.parentID = some parent)).map Permission.permID
  else []

/-- Every attachment slot of the built structure: the root list together
with the children list of every map node. -/
def buildAllIDs (ps : List Permission) (σ : List Int) : List Int :=
  buildRootIDs ps σ ++ (σ.map (buildChildIDs ps σ)).flatten

theorem permMapFind_mem {ps : List Permission} {k : Int} {p : Permission}
    (h : permMapFind ps k = some p) : p ∈ ps :=
  List.mem_reverse.mp (List.mem_of_find?_eq_some h)

theorem permMapFind_id {ps : List Permission} {k : Int} {p : Permission}
    (h : permMapFind ps k = some p) : p.permID = k := by
  unfold permMapFind at h
  have h2 := List.find?_some h
  simpa using h2

instance (ps : List Permission) (σ : List Int) : Decidable (IsMapIterOrder ps σ) := by
  unfold IsMapIterOrder
  infer_instance

theorem permMapFind_isSome {ps : List Permission} {k : Int} :
    (permMapFind ps k).isSome = true ↔ k ∈ permIDs ps := by
  unfold permMapFind permIDs
  rw [List.find?_isSome]
  constructor
  · rintro ⟨p, hp, hpk⟩
    exact List.mem_map.mpr ⟨p, List.mem_reverse.mp hp, of_decide_eq_true hpk⟩
  · intro h
    obtain ⟨p, hp, hid⟩ := List.mem_map.mp h
    exact ⟨p, List.mem_reverse.mpr hp, decide_eq_true hid⟩

theorem mem_iterPerms {ps : List Permission} {σ : List Int} {q : Permission}
    (h : q ∈ iterPerms ps σ) : q ∈ ps := by
  obtain ⟨k, hk, hfind⟩ := List.mem_filterMap.mp h
  exact permMapFind_mem hfind

theorem iterPerms_map_id {ps : List Permission} {σ : List Int}
    (h : ∀ k ∈ σ, k ∈ permIDs ps) :
    (iterPerms ps σ).map Permission.permID = σ := by
  induction σ with
  | nil => rfl
  | cons k ks ih =>
    have hk : k ∈ permIDs ps := h k (List.mem_cons_self k ks)
    obtain ⟨p, hp⟩ := Option.isSome_iff_exists.mp (permMapFind_isSome.mpr hk)
    rw [iterPerms, List.filterMap_cons_some hp, List.map_cons, permMapFind_id hp]
    rw [iterPerms] at ih
    rw [ih fun j hj => h j (List.mem_cons_of_mem k hj)]

/-- Claim C5: a node whose `parent_id` is non-null, non-zero and absent
from the input's ID set is excluded from the built tree entirely — its ID
is neither in the root list nor in any node's children list, for every map
iteration order. -/
theorem orphan_node_dropped (ps : List Permission) (σ : List Int) (p : Permission) (k : Int)
    (hnd : (permIDs ps).Nodup) (hσ : IsMapIterOrder ps σ)
    (hp : p ∈ ps) (hpar : p.parentID = some k) (hk : k ≠ 0) (hkabs : k ∉ permIDs ps) :
    p.permID ∉ buildRootIDs ps σ ∧ ∀ j : Int, p.permID ∉ buildChildIDs ps σ j := by
  have hroot : isRootPerm p = false := by
    simp [isRootPerm, hpar, hk]
  have hinj := List.inj_on_of_nodup_map (f := Permission.permID) (l := ps) hnd
  constructor
  · intro hmem
    rw [buildRootIDs] at hmem
    obtain ⟨q, hq, hqid⟩ := List.mem_map.mp hmem
    rw [List.mem_filter] at hq
    obtain ⟨hqiter, hqroot⟩ := hq
    have heq : q = p := hinj (mem_iterPerms hqiter) hp hqid
    rw [heq, hroot] at hqroot
    exact Bool.false_ne_true hqroot
  · intro j hmem
    rw [buildChildIDs] at hmem
    by_cases hj : j ∈ permIDs ps
    · rw [if_pos hj] at hmem
      obtain ⟨q, hq, hqid⟩ := List.mem_map.mp hmem
      rw [List.mem_filter, Bool.and_eq_true, decide_eq_true_eq] at hq
      obtain ⟨hqiter, hqnr, hqpar⟩ := hq
      have heq : q = p := hinj (mem_iterPerms hqiter) hp hqid
      rw [heq, hpar] at hqpar
      exact hkabs (Option.some.inj hqpar ▸ hj)
    · rw [if_neg hj] at hmem
      exact List.not_mem_nil _ hmem

/-- The spec's orphan scenario: ids 1 (root), 2 (child of 1), 3 (parent 99
absent). -/
def orphanPerms : List Permission :=
  [{ permID := 1, permType := 1, parentID := none, apiPath := [],
     isEnabled := true, isBuiltin := false },
   { permID := 2, permType := 1, parentID := some 1, apiPath := [],
     isEnabled := true, isBuiltin := false },
   { permID := 3, permType := 1, parentID := some 99, apiPath := [],
     isEnabled := true, isBuiltin := false }]

/-- Witness for C5 on the spec scenario: id 3 is neither a root nor a
child anywhere, while the tree has root `[1]` with children `[2]`. -/
theorem orphan_node_dropped_witness :
    ((permIDs orphanPerms).Nodup ∧ IsMapIterOrder orphanPerms [1, 2, 3]) ∧
    ((3 : Int) ∉ buildRootIDs orphanPerms [1, 2, 3] ∧
      ∀ j : Int, (3 : Int) ∉ buildChildIDs orphanPerms [1, 2, 3] j) ∧
    buildRootIDs orphanPerms [1, 2, 3] = [1] ∧
    buildChildIDs orphanPerms [1, 2, 3] 1 = [2] :=
  ⟨⟨by decide, by decide⟩,
    orphan_node_dropped orphanPerms [1, 2, 3]
      { permID := 3, permType := 1, parentID := some 99, apiPath := [],
        isEnabled := true, isBuiltin := false } 99
      (by decide) ⟨by decide, by decide, by decide⟩ (by decide) (by decide) (by decide)
      (by decide),
    by decide, by decide⟩

/-- Claim C7: the builder is a total function (so it terminates on every
input, cycles included), it attaches each node at most once — the root
list and all children lists together contain no duplicate ID — and every
child edge goes to the node's immediate parent. -/
theorem build_no_duplicates (ps : List Permission) (σ : List Int)
    (hσ : IsMapIterOrder ps σ) :
    (buildAllIDs ps σ).Nodup ∧
    ∀ j x, x ∈ buildChildIDs ps σ j →
      ∃ q ∈ ps, q.permID = x ∧ q.parentID = some j := by
  obtain ⟨hnd, hsub, hsup⟩ := hσ
  have hmap : (iterPerms ps σ).map Permission.permID = σ := iterPerms_map_id hsub
  have hndids : ((iterPerms ps σ).map Permission.permID).Nodup := by rw [hmap]; exact hnd
  have hinj := List.inj_on_of_nodup_map hndids
  have hrootmem : ∀ x, x ∈ buildRootIDs ps σ →
      ∃ q ∈ iterPerms ps σ, isRootPerm q = true ∧ q.permID = x := by
    intro x hx
    rw [buildRootIDs] at hx
    obtain ⟨q, hq, hqx⟩ := List.mem_map.mp hx
    rw [List.mem_filter] at hq
    exact ⟨q, hq.1, hq.2, hqx⟩
  have hchildmem : ∀ j x, x ∈ buildChildIDs ps σ j →
      ∃ q ∈ iterPerms ps σ, isRootPerm q = false ∧ q.parentID = some j ∧ q.permID = x := by
    intro j x hx
    rw [buildChildIDs] at hx
    by_cases hj : j ∈ permIDs ps
    · rw [if_pos hj] at hx
      obtain ⟨q, hq, hqx⟩ := List.mem_map.mp hx
      rw [List.mem_filter, Bool.and_eq_true, Bool.not_eq_true', decide_eq_true_eq] at hq
      exact ⟨q, hq.1, hq.2.1, hq.2.2, hqx⟩
    · rw [if_neg hj] at hx
      exact absurd hx (List.not_mem_nil x)
  constructor
  · rw [buildAllIDs, List.nodup_append]
    refine ⟨?_, ?_, ?_⟩
    · have hsl : List.Sublist (buildRootIDs ps σ) ((iterPerms ps σ).map Permission.permID) := by
        rw [buildRootIDs]
        exact (List.filter_sublist _).map Permission.permID
      rw [hmap] at hsl
      exact hsl.nodup hnd
    · rw [List.nodup_flatten]
      constructor
      · intro lst hlst
        obtain ⟨j, hj, rfl⟩ := List.mem_map.mp hlst
        by_cases hjj : j ∈ permIDs ps
        · have hsl : List.Sublist (buildChildIDs ps σ j)
              ((iterPerms ps σ).map Permission.permID) := by
            rw [buildChildIDs, if_pos hjj]
            exact (List.filter_sublist _).map Permission.permID
          rw [hmap] at hsl
          exact hsl.nodup hnd
        · rw [buildChildIDs, if_neg hjj]
          exact List.nodup_nil
      · rw [List.pairwise_map]
        refine hnd.imp ?_
        intro a b hab x hxa hxb
        obtain ⟨q1, hq1, hnr1, hp1, hid1⟩ := hchildmem a x hxa
        obtain ⟨q2, hq2, hnr2, hp2, hid2⟩ := hchildmem b x hxb
        have heq : q1 = q2 := hinj hq1 hq2 (hid1.trans hid2.symm)
        rw [heq, hp2] at hp1
        exact hab (Option.some.inj hp1).symm
    · intro x hxr hxf
      obtain ⟨q1, hq1, hr1, hid1⟩ := hrootmem x hxr
      obtain ⟨lst, hlst, hxl⟩ := List.mem_flatten.mp hxf
      obtain ⟨j, hj, rfl⟩ := List.mem_map.mp hlst
      obtain ⟨q2, hq2, hnr2, hp2, hid2⟩ := hchildmem j x hxl
      have heq : q1 = q2 := hinj hq1 hq2 (hid1.trans hid2.symm)
      rw [heq] at hr1
      exact Bool.false_ne_true (hnr2.symm.trans hr1)
  · intro j x hx
    obtain ⟨q, hq, hnr, hp, hid⟩ := hchildmem j x hx
    exact ⟨q, mem_iterPerms hq, hid, hp⟩

/-- A two-node parent cycle: 1 → 2 → 1. -/
def cyclePerms : List Permission :=
  [{ permID := 1, permType := 1, parentID := some 2, apiPath := [],
     isEnabled := true, isBuiltin := false },
   { permID := 2, permType := 1, parentID := some 1, apiPath := [],
     isEnabled := true, isBuiltin := false }]

/-- Witness for C7 on the cycle 1 → 2 → 1: the builder still attaches each
node exactly once and no ID is duplicated. -/
theorem build_no_duplicates_witness :
    IsMapIterOrder cyclePerms [1, 2] ∧
    ((buildAllIDs cyclePerms [1, 2]).Nodup ∧
      ∀ j x, x ∈ buildChildIDs cyclePerms [1, 2] j →
        ∃ q ∈ cyclePerms, q.permID = x ∧ q.parentID = some j) :=
  ⟨by decide, build_no_duplicates cyclePerms [1, 2] (by decide)⟩

theorem permMapFind_cons_self {p : Permission} {rest : List Permission}
    (h : p.permID ∉ permIDs rest) : permMapFind (p :: rest) p.permID = some p := by
  unfold permMapFind
  rw [List.reverse_cons, List.find?_append]
  have hnone : rest.reverse.find? (fun q => decide (q.permID = p.permID)) = none := by
    rw [List.find?_eq_none]
    intro q hq
    simp only [decide_eq_true_eq]
    intro hid
    exact h (List.mem_map.mpr ⟨q, List.mem_reverse.mp hq, hid⟩)
  rw [hnone]
  simp

theorem permMapFind_cons_of_mem {p : Permission} {rest : List Permission} {k : Int}
    (h : k ∈ permIDs rest) : permMapFind (p :: rest) k = permMapFind rest k := by
  obtain ⟨q, hq⟩ := Option.isSome_iff_exists.mp (permMapFind_isSome.mpr h)
  unfold permMapFind at hq ⊢
  rw [List.reverse_cons, List.find?_append, hq]
  rfl

/-- When the IDs are distinct and the map is iterated in input-scan order,
the visited values are exactly the input list. -/
theorem iterPerms_self {ps : List Permission} (hnd : (permIDs ps).Nodup) :
    iterPerms ps (permIDs ps) = ps := by
  induction ps with
  | nil => rfl
  | cons p rest ih =>
    have hnd2 : (p.permID :: permIDs rest).Nodup := hnd
    have hnotin : p.permID ∉ permIDs rest := (List.nodup_cons.mp hnd2).1
    have hrest : (permIDs rest).Nodup := (List.nodup_cons.mp hnd2).2
    show List.filterMap (permMapFind (p :: rest)) (p.permID :: permIDs rest) = p :: rest
    rw [List.filterMap_cons_some (permMapFind_cons_self hnotin)]
    have hcong : List.filterMap (permMapFind (p :: rest)) (permIDs rest)
        = List.filterMap (permMapFind rest) (permIDs rest) :=
      List.filterMap_congr fun k hk => permMapFind_cons_of_mem hk
    rw [hcong]
    have hrec : List.filterMap (permMapFind rest) (permIDs rest) = rest := ih hrest
    rw [hrec]

/-- Two root permissions, IDs 1 and 2, in that input order. -/
def twoRoots : List Permission :=
  [{ permID := 1, permType := 1, parentID := none, apiPath := [],
     isEnabled := true, isBuiltin := false },
   { permID := 2, permType := 1, parentID := none, apiPath := [],
     isEnabled := true, isBuiltin := false }]

/-- Counterexample to claim C6 as stated: `[2, 1]` is a legitimate
iteration order of the Go map built from `twoRoots` (Go map iteration
order is unspecified), and under it the emitted root list `[2, 1]` does
not preserve the input-scan order `[1, 2]`. -/
theorem build_order_counterexample :
    IsMapIterOrder twoRoots [2, 1] ∧
    buildRootIDs twoRoots [2, 1] ≠ (twoRoots.filter isRootPerm).map Permission.permID :=
  ⟨by decide, by decide⟩

/-- Claim C6 as amended: the builder sorts nothing on its own — its output
order is the map's iteration order; whenever that iteration order agrees
with the input scan (and IDs are distinct), the root list and every
children list are order-preserving filters of the input list. -/
theorem build_order_insertion (ps : List Permission) (hnd : (permIDs ps).Nodup) :
    buildRootIDs ps (permIDs ps) = (ps.filter isRootPerm).map Permission.permID ∧
    ∀ j ∈ permIDs ps, buildChildIDs ps (permIDs ps) j =
      (ps.filter fun p => !isRootPerm p && decide (p.parentID = some j)).map
        Permission.permID := by
  constructor
  · rw [buildRootIDs, iterPerms_self hnd]
  · intro j hj
    rw [buildChildIDs, if_pos hj, iterPerms_self hnd]

/-- Witness for the amended C6 on the three-node example. -/
theorem build_order_insertion_witness :
    (permIDs orphanPerms).Nodup ∧
    (buildRootIDs orphanPerms (permIDs orphanPerms) =
        (orphanPerms.filter isRootPerm).map Permission.permID ∧
      ∀ j ∈ permIDs orphanPerms, buildChildIDs orphanPerms (permIDs orphanPerms) j =
        (orphanPerms.filter fun p => !isRootPerm p && decide (p.parentID = some j)).map
          Permission.permID) :=
  ⟨by decide, build_order_insertion orphanPerms (by decide)⟩

/-- The four distinct failure messages of `DeletePermission`
(permission_service.go). -/
inductive DeleteError where
  | notFound
  | builtinPermission
  | hasChildPermission
  | assignedToRole
deriving DecidableEq

/-- Embedding of `DeletePermission` (permission_service.go): look the row
up by primary key, then refuse when it is builtin, when some permission
has it as parent, or when it is assigned to a role; otherwise remove it.
The returned store is the post-call table state: unchanged on every error
path. -/
def DeletePermission (st : Store) (permID : Int) : Store × Option DeleteError :=
  match st.permissions.find? fun p => decide (p.permID = permID) with
  | none => (st, some DeleteError.notFound)
  | some perm =>
    if perm.isBuiltin then
      (st, some DeleteError.builtinPermission)
    else if 0 < (st.permissions.filter fun p => decide (p.parentID = some permID)).length then
      (st, some DeleteError.hasChildPermission)
    else if 0 < (st.rolePerms.filter fun rp => decide (rp.2 = permID)).length then
      (st, some DeleteError.assignedToRole)
    else
      ({ st with permissions := st.permissions.filter fun p => !decide (p.permID = permID) },
        none)

/-- Claim C10: when the target permission is builtin, has a child, or is
assigned to a role, `DeletePermission` errs and leaves the store
unchanged; and on success the deleted row was not builtin and no surviving
permission still names the deleted ID as its parent. -/
theorem delete_permission_guards (st : Store) (pid : Int) (perm : Permission)
    (hfind : st.permissions.find? (fun p => decide (p.permID = pid)) = some perm) :
    (perm.isBuiltin = true ∨ (∃ q ∈ st.permissions, q.parentID = some pid) ∨
        (∃ rp ∈ st.rolePerms, rp.2 = pid) →
      (DeletePermission st pid).1 = st ∧ ((DeletePermission st pid).2).isSome = true) ∧
    ((DeletePermission st pid).2 = none →
      perm.isBuiltin = false ∧
        ∀ q ∈ (DeletePermission st pid).1.permissions, q.parentID ≠ some pid) := by
  have hred : DeletePermission st pid =
      (if perm.isBuiltin then (st, some DeleteError.builtinPermission)
      else if 0 < (st.permissions.filter fun p => decide (p.parentID = some pid)).length then
        (st, some DeleteError.hasChildPermission)
      else if 0 < (st.rolePerms.filter fun rp => decide (rp.2 = pid)).length then
        (st, some DeleteError.assignedToRole)
      else
        ({ st with permissions := st.permissions.filter fun p => !decide (p.permID = pid) },
          none)) := by
    unfold DeletePermission
    rw [hfind]
  rw [hred]
  split_ifs with hb hc hr
  · exact ⟨fun _ => ⟨rfl, rfl⟩, fun hnone => by simp at hnone⟩
  · exact ⟨fun _ => ⟨rfl, rfl⟩, fun hnone => by simp at hnone⟩
  · exact ⟨fun _ => ⟨rfl, rfl⟩, fun hnone => by simp at hnone⟩
  · constructor
    · intro hdisj
      exfalso
      rcases hdisj with h | h | h
      · exact hb h
      · obtain ⟨q, hq, hqp⟩ := h
        exact hc (List.length_pos_of_mem (List.mem_filter.mpr ⟨hq, decide_eq_true hqp⟩))
      · obtain ⟨rp, hrp, hrpe⟩ := h
        exact hr (List.length_pos_of_mem (List.mem_filter.mpr ⟨hrp, decide_eq_true hrpe⟩))
    · intro _
      refine ⟨by simpa using hb, ?_⟩
      intro q hq hqp
      have hqmem : q ∈ st.permissions := (List.mem_filter.mp hq).1
      exact hc (List.length_pos_of_mem (List.mem_filter.mpr ⟨hqmem, decide_eq_true hqp⟩))

/-- A store holding a single builtin permission with ID 5. -/
def builtinStore : Store :=
  { roles := []
    permissions := [{ permID := 5, permType := 1, parentID := none, apiPath := [],
                      isEnabled := true, isBuiltin := true }]
    rolePerms := [] }

/-- Witness for C10: deleting the builtin permission 5 errs and the store
is untouched. -/
theorem delete_permission_guards_witness :
    builtinStore.permissions.find? (fun p => decide (p.permID = 5)) =
      some { permID := 5, permType := 1, parentID := none, apiPath := [],
             isEnabled := true, isBuiltin := true } ∧
    ((({ permID := 5, permType := 1, parentID := none, apiPath := [],
         isEnabled := true, isBuiltin := true } : Permission).isBuiltin = true ∨
        (∃ q ∈ builtinStore.permissions, q.parentID = some 5) ∨
        (∃ rp ∈ builtinStore.rolePerms, rp.2 = 5) →
      (DeletePermission builtinStore 5).1 = builtinStore ∧
        ((DeletePermission builtinStore 5).2).isSome = true) ∧
    ((DeletePermission builtinStore 5).2 = none →
      ({ permID := 5, permType := 1, parentID := none, apiPath := [],
         isEnabled := true, isBuiltin := true } : Permission).isBuiltin = false ∧
        ∀ q ∈ (DeletePermission builtinStore 5).1.permissions, q.parentID ≠ some 5)) :=
  ⟨by decide, delete_permission_guards builtinStore 5 _ (by decide)⟩

/-- A row of `cms_categories`, restricted to the fields the path trigger
touches; the ltree `path` is modelled as the list of ancestor IDs. -/
structure Category where
  categoryID : Int
  parentID : Option Int
  path : List Int
deriving DecidableEq

/-- Primary-key lookup in the category table. -/
def lookupCategory (cats : List Category) (k : Int) : Option Category :=
  cats.find? fun c => decide (c.categoryID = k)

/-- Embedding of the trigger function `update_category_path` (pg.sql): a
null parent gives `path = <own id>`; otherwise the parent row must exist
(else the trigger raises and the statement fails) and the new path is the
parent's stored path extended with the row's own ID. -/
def update_category_path (cats : List Category) (cid : Int) (parent : Option Int) :
    Option (List Int) :=
  match parent with
  | none => some [cid]
  | some pid =>
    match lookupCategory cats pid with
    | none => none
    | some prow => some (prow.path ++ [cid])

/-- The row rewrite performed by `UPDATE ... SET parent_id = ...` once the
BEFORE trigger has computed the new path `pth`. -/
def reparentRow (cid : Int) (parent : Option Int) (pth : List Int) (c : Category) : Category :=
  if c.categoryID = cid then { c with parentID := parent, path := pth } else c

/-- A write that fires `trg_category_path`: an INSERT, or an UPDATE OF
`parent_id`. -/
inductive CatOp where
  | insert (cid : Int) (parent : Option Int)
  | setParent (cid : Int) (parent : Option Int)
deriving DecidableEq

/-- One write through the trigger-guarded path.  INSERT appends the new
row (the primary key forbids a duplicate ID) with the trigger-computed
path; UPDATE OF `parent_id` rewrites the matching row with the
trigger-computed path (an UPDATE matching no row changes nothing).
`none` models the raised exception: the statement aborts with no change. -/
def applyCatOp (cats : List Category) : CatOp → Option (List Category)
  | CatOp.insert cid parent =>
    if cid ∈ cats.map Category.categoryID then none
    else
      (update_category_path cats cid parent).map fun pth =>
        cats ++ [{ categoryID := cid, parentID := parent, path := pth }]
  | CatOp.setParent cid parent =>
    match lookupCategory cats cid with
    | none => some cats
    | some _ =>
      (update_category_path cats cid parent).map fun pth =>
        cats.map (reparentRow cid parent pth)

/-- A sequence of trigger-guarded writes, starting from the empty table. -/
def applyCatOps (ops : List CatOp) : Option (List Category) :=
  ops.foldlM applyCatOp []

/-- The materialized-path invariant for one row: a root's path is its own
ID; otherwise the parent row exists and the row's path is the parent's
path followed by the own ID. -/
def categoryPathOK (cats : List Category) (c : Category) : Bool :=
  match c.parentID with
  | none => decide (c.path = [c.categoryID])
  | some pid =>
    match lookupCategory cats pid with
    | none => false
    | some prow => decide (c.path = prow.path ++ [c.categoryID])

/-- The materialized-path invariant for the whole table. -/
def CategoryPathInv (cats : List Category) : Prop :=
  ∀ c ∈ cats, categoryPathOK cats c = true

instance (cats : List Category) : Decidable (CategoryPathInv cats) := by
  unfold CategoryPathInv
  infer_instance

/-- Roots 1 and 3, child 2 under 1, then reparent 1 under 3. -/
def reparentOps : List CatOp :=
  [CatOp.insert 1 none, CatOp.insert 2 (some 1), CatOp.insert 3 none,
   CatOp.setParent 1 (some 3)]

/-- Counterexample to claim C8 as stated: the sequence `reparentOps`
succeeds, yet the invariant is broken afterwards — category 2 keeps path
`1.2` although its parent 1 now has path `3.1`; the trigger recomputes
only the written row and never cascades to pre-existing descendants. -/
theorem category_path_counterexample :
    applyCatOps reparentOps =
      some [{ categoryID := 1, parentID := some 3, path := [3, 1] },
            { categoryID := 2, parentID := some 1, path := [1, 2] },
            { categoryID := 3, parentID := none, path := [3] }] ∧
    ¬ CategoryPathInv
        [{ categoryID := 1, parentID := some 3, path := [3, 1] },
         { categoryID := 2, parentID := some 1, path := [1, 2] },
         { categoryID := 3, parentID := none, path := [3] }] :=
  ⟨by decide, by decide⟩

/-- Claim C8 as amended: each successful insert or `parent_id` update
leaves the *written* row satisfying the invariant (root → own ID;
otherwise the parent's current path plus the own ID), provided the row is
not made its own parent; paths of pre-existing descendants are not
recomputed. -/
theorem written_row_path_ok (cats cats' : List Category) (cid : Int) (parent : Option Int)
    (op : CatOp)
    (hop : op = CatOp.insert cid parent ∨ op = CatOp.setParent cid parent)
    (hself : parent ≠ some cid)
    (happ : applyCatOp cats op = some cats') :
    ∀ c ∈ cats', c.categoryID = cid → categoryPathOK cats' c = true := by
  rcases hop with rfl | rfl
  · simp only [applyCatOp] at happ
    by_cases hdup : cid ∈ cats.map Category.categoryID
    · rw [if_pos hdup] at happ
      simp at happ
    · rw [if_neg hdup] at happ
      cases hupd : update_category_path cats cid parent with
      | none =>
        rw [hupd] at happ
        simp at happ
      | some pth =>
        rw [hupd] at happ
        have hc' : cats' = cats ++ [{ categoryID := cid, parentID := parent, path := pth }] := by
          simpa using happ.symm
        subst hc'
        intro c hc hcid
        rcases List.mem_append.mp hc with hin | hin
        · have hmem : c.categoryID ∈ cats.map Category.categoryID :=
            List.mem_map_of_mem Category.categoryID hin
          rw [hcid] at hmem
          exact absurd hmem hdup
        · have hceq : c = { categoryID := cid, parentID := parent, path := pth } := by
            simpa using hin
          subst hceq
          cases parent with
          | none =>
            have hpth : pth = [cid] := by
              simpa [update_category_path] using hupd.symm
            simp [categoryPathOK, hpth]
          | some pid =>
            rw [update_category_path] at hupd
            cases hlookp : lookupCategory cats pid with
            | none =>
              rw [hlookp] at hupd
              simp at hupd
            | some prow =>
              rw [hlookp] at hupd
              have hpth : pth = prow.path ++ [cid] := by simpa using hupd.symm
              subst hpth
              have hlookp2 : lookupCategory
                  (cats ++
                    [{ categoryID := cid, parentID := some pid,
                       path := prow.path ++ [cid] }]) pid = some prow := by
                unfold lookupCategory at hlookp ⊢
                rw [List.find?_append, hlookp]
                rfl
              simp [categoryPathOK, hlookp2]
  · simp only [applyCatOp] at happ
    cases hlookc : lookupCategory cats cid with
    | none =>
      rw [hlookc] at happ
      have hc' : cats' = cats := by simpa using happ.symm
      subst hc'
      intro c hc hcid
      exfalso
      rw [lookupCategory, List.find?_eq_none] at hlookc
      exact hlookc c hc (decide_eq_true hcid)
    | some row =>
      rw [hlookc] at happ
      cases hupd : update_category_path cats cid parent with
      | none =>
        rw [hupd] at happ
        simp at happ
      | some pth =>
        rw [hupd] at happ
        have hc' : cats' = cats.map (reparentRow cid parent pth) := by
          simpa using happ.symm
        subst hc'
        intro c hc hcid
        obtain ⟨b, hb, hbc⟩ := List.mem_map.mp hc
        have hbid : b.categoryID = cid := by
          by_cases hbb : b.categoryID = cid
          · exact hbb
          · rw [← hbc] at hcid
            rw [reparentRow, if_neg hbb] at hcid
            exact absurd hcid hbb
        have hceq : c = { b with parentID := parent, path := pth } := by
          rw [← hbc, reparentRow, if_pos hbid]
        subst hceq
        cases parent with
        | none =>
          have hpth : pth = [cid] := by
            simpa [update_category_path] using hupd.symm
          simp [categoryPathOK, hpth, hbid]
        | some pid =>
          have hpid : pid ≠ cid := fun hh => hself (by rw [hh])
          rw [update_category_path] at hupd
          cases hlookp : lookupCategory cats pid with
          | none =>
            rw [hlookp] at hupd
            simp at hupd
          | some prow =>
            rw [hlookp] at hupd
            have hpth : pth = prow.path ++ [cid] := by simpa using hupd.symm
            subst hpth
            have hprowid : prow.categoryID = pid := by
              unfold lookupCategory at hlookp
              have h2 := List.find?_some hlookp
              simpa using h2
            have hlookp2 : lookupCategory
                (cats.map (reparentRow cid (some pid) (prow.path ++ [cid]))) pid =
                  some prow := by
              unfold lookupCategory at hlookp ⊢
              rw [List.find?_map]
              have hcongr : ((fun c => decide (c.categoryID = pid)) ∘
                  reparentRow cid (some pid) (prow.path ++ [cid])) =
                    fun c => decide (c.categoryID = pid) := by
                funext b2
                simp only [Function.comp]
                by_cases hbb : b2.categoryID = cid
                · rw [reparentRow, if_pos hbb]
                · rw [reparentRow, if_neg hbb]
              rw [hcongr, hlookp]
              have hne : reparentRow cid (some pid) (prow.path ++ [cid]) prow = prow := by
                rw [reparentRow, if_neg (by rw [hprowid]; exact fun hh => hpid hh)]
              simp [hne]
            simp [categoryPathOK, hlookp2, hbid]

/-- Witness for the amended C8: inserting category 1 under existing root 3
yields path `3.1` on the written row, satisfying the invariant. -/
theorem written_row_path_ok_witness :
    ((CatOp.insert 1 (some 3) : CatOp) = CatOp.insert 1 (some 3) ∨
      (CatOp.insert 1 (some 3) : CatOp) = CatOp.setParent 1 (some 3)) ∧
    (some (3 : Int) ≠ some (1 : Int)) ∧
    applyCatOp [{ categoryID := 3, parentID := none, path := [3] }]
        (CatOp.insert 1 (some 3)) =
      some [{ categoryID := 3, parentID := none, path := [3] },
            { categoryID := 1, parentID := some 3, path := [3, 1] }] ∧
    ∀ c ∈ [({ categoryID := 3, parentID := none, path := [3] } : Category),
           { categoryID := 1, parentID := some 3, path := [3, 1] }],
      c.categoryID = 1 →
        categoryPathOK [{ categoryID := 3, parentID := none, path := [3] },
          { categoryID := 1, parentID := some 3, path := [3, 1] }] c = true :=
  ⟨Or.inl rfl, by decide, by decide,
    written_row_path_ok [{ categoryID := 3, parentID := none, path := [3] }]
      [{ categoryID := 3, parentID := none, path := [3] },
       { categoryID := 1, parentID := some 3, path := [3, 1] }]
      1 (some 3) (CatOp.insert 1 (some 3)) (Or.inl rfl) (by decide) (by decide)⟩

end Blog
